import Mathlib

/-!
Verification of the hybrid-search RAG pipeline (document processor,
search engine, bulk processor) against its natural-language specification.

The Python sources are shallowly embedded:

* Python dictionary values that flow through the document processor are
  modelled by the inductive type `Val` (strings, integers and `None` are
  enough for every claim; Python truthiness is `Val.truthy`).
* Fallible code (network calls, `raise`) is modelled with
  `Except String`, the error text standing for `str(e)`.
* Python floats are modelled as real numbers; `x ** 0.5` becomes
  `Real.sqrt`.
* External services (OpenAI embeddings and chat completion) are oracles
  packaged in an `Env` structure; the vector store is a plain list of
  points, with the fused RRF query modelled from the specification
  (see `fusedQuery`).
-/

/-- A Python value as far as the document processor inspects it:
a string, an integer, or `None`.  This is the value space of the
dictionaries handled by `validate_document` / `clean_document` /
`index_document`. -/
inductive Val where
  | str (s : String)
  | intV (n : Int)
  | noneV
deriving DecidableEq

namespace Val

/-- Python truthiness (`bool(v)`): empty string, `0` and `None` are falsy. -/
def truthy : Val → Bool
  | .str s => s ≠ ""
  | .intV n => n ≠ 0
  | .noneV => false

/-- Python `isinstance(v, str)`. -/
def isStr : Val → Bool
  | .str _ => true
  | _ => false

/-- Python `str(v)` / f-string interpolation of a value. -/
def format : Val → String
  | .str s => s
  | .intV n => toString n
  | .noneV => "None"

/-- Python `v.strip()` restricted to the cases `clean_document` can reach:
string values are stripped of surrounding whitespace.  (On a truthy
non-string value Python would raise `AttributeError`; `clean_document` is
only called on documents that passed `validate_document`, whose text
fields are strings, so that case is unreachable in the validated path.) -/
def strip : Val → Val
  | .str s => .str s.trim
  | v => v

end Val

/-- A raw question/answer document (a Python dict), restricted to the six
keys the code reads.  `none` means the key is absent from the dict;
`some .noneV` means the key is present with value `None`. -/
structure Doc where
  id : Option Val := none
  question : Option Val := none
  answer : Option Val := none
  summary : Option Val := none
  answer_type : Option Val := none
  date : Option Val := none
deriving DecidableEq

/-- `DocumentProcessor.validate_document`.  Returns the boolean result of
the Python function together with the list of warning messages it logs
(the log lines are the only place a rejection reason is reported).
Faithful to the source: required fields must be present and truthy,
`question`/`answer` must be strings (one shared message, naming neither
field individually), and each optional field present and not `None` must
be a string. -/
def validateDocument (d : Doc) : Bool × List String :=
  -- required fields: `if field not in document or not document[field]`
  if d.question.all (fun v => !v.truthy) then
    (false, ["Missing required field: question"])
  else if d.answer.all (fun v => !v.truthy) then
    (false, ["Missing required field: answer"])
  -- `if not isinstance(document["question"], str) or not isinstance(document["answer"], str)`
  else if !((d.question.getD .noneV).isStr && (d.answer.getD .noneV).isStr) then
    (false, ["Question and answer must be strings"])
  -- optional fields: `if field in document and document[field] is not None`
  else if d.summary.any (fun v => v ≠ .noneV && !v.isStr) then
    (false, ["Optional field summary must be a string"])
  else if d.answer_type.any (fun v => v ≠ .noneV && !v.isStr) then
    (false, ["Optional field answer_type must be a string"])
  else if d.date.any (fun v => v ≠ .noneV && !v.isStr) then
    (false, ["Optional field date must be a string"])
  else
    (true, [])

/-- `DocumentProcessor.clean_document`: copy the document, strip the
`question`/`answer`/`summary` fields when present and truthy, then
`setdefault` the optional fields (`summary` to `""`, `answer_type` to
`"general"`, `date` to `""`).  `setdefault` only fires when the key is
absent, not when it is present with value `None`. -/
def cleanDocument (d : Doc) : Doc :=
  let stripIf : Option Val → Option Val := fun o =>
    o.map (fun v => if v.truthy then v.strip else v)
  { id := d.id
    question := stripIf d.question
    answer := stripIf d.answer
    summary := (stripIf d.summary).getD (.str "") |> some
    answer_type := some (d.answer_type.getD (.str "general"))
    date := some (d.date.getD (.str "")) }

/-- `DocumentProcessor.validate_and_clean`: keep, cleaned, exactly the
documents that pass validation; invalid documents are skipped and the
loop continues with the rest. -/
def validateAndClean (docs : List Doc) : List Doc :=
  (docs.filter (fun d => (validateDocument d).1)).map cleanDocument

/-- A sparse embedding: parallel lists of indices and values
(`SparseVector(indices=..., values=...)`). -/
structure SparseVec where
  indices : List Nat
  values : List ℝ

/-- One element of the list returned by `hybrid_search`:
`{"id": ..., "score": ..., "payload": ...}`.  The payload is the stored
record's fields, kept as an association list so that "which keys are
present" is observable. -/
structure SearchResult where
  id : Val
  score : ℝ
  payload : List (String × Val)

/-- The external services used by `HybridSearchEngine`: the OpenAI dense
embedding endpoint, the fastembed sparse embedding model, and the chat
completion call.  All are fallible; the error string stands for the
exception text.  The LLM oracle receives the query and the search
results; the string formatting of the prompt (lines 203-224 of
`search_engine.py`) is folded into the oracle, since the prompt text is
opaque to every claim — but the payload key accesses of the
context-formatting loop that precedes it (lines 195-201), which raise
`KeyError` deterministically on a malformed payload before the LLM is
invoked, are modelled separately by `contextEntries`. -/
structure Env where
  embed : String → Except String (List ℝ)
  sparseEmbed : String → Except String SparseVec
  llm : String → List SearchResult → Except String String

/-- `HybridSearchEngine.get_dense_embedding`: newlines are replaced by
spaces before the embedding call. -/
def getDenseEmbedding (env : Env) (text : String) : Except String (List ℝ) :=
  env.embed (text.replace "\n" " ")

/-- A point as upserted into the vector store. -/
structure Point where
  id : Val
  dense : List ℝ
  sparse : SparseVec
  payload : List (String × Val)

/-- `HybridSearchEngine.index_document`.  `freshId` stands for the
`str(uuid.uuid4())` drawn when the document has no `id` key.  Returns the
value the Python function returns (`point.id`) together with the point
upserted into the store.  Missing `question`/`answer` keys raise
`KeyError`; embedding failures propagate. -/
def indexDocument (env : Env) (freshId : String) (doc : Doc) :
    Except String (Val × Point) :=
  match doc.question, doc.answer with
  | some q, some a =>
    match getDenseEmbedding env ("Question: " ++ q.format ++ " Answer: " ++ a.format) with
    | .error e => .error e
    | .ok dense =>
      match env.sparseEmbed ("Question: " ++ q.format ++ " Answer: " ++ a.format) with
      | .error e => .error e
      | .ok sparse =>
        let payload : List (String × Val) :=
          [("question", q),
           ("answer", a),
           ("summary", doc.summary.getD (.str "")),
           ("answer_type", doc.answer_type.getD (.str "")),
           ("date", doc.date.getD (.str ""))]
        let pointId := doc.id.getD (.str freshId)
        .ok (pointId, ⟨pointId, dense, sparse, payload⟩)
  | _, _ => .error "KeyError"

/-- `sum(a*b for a, b in zip(v, w))`. -/
def dotList (v w : List ℝ) : ℝ := (v.zipWith (fun a b => a * b) w).sum

/-- Cosine similarity as computed inline by the source: dot product over
the product of the two L2 norms (`** 0.5` becomes `Real.sqrt`). -/
noncomputable def cosSim (v w : List ℝ) : ℝ :=
  dotList v w / (Real.sqrt (dotList v v) * Real.sqrt (dotList w w))

/-- All unordered pairs `(l[i], l[j])` with `i < j`, in the order the
nested loops of `generate_answer` visit them. -/
def pairsOf {α : Type} : List α → List (α × α)
  | [] => []
  | x :: xs => (xs.map (fun y => (x, y))) ++ pairsOf xs

/-- Embedding one retrieved answer value: `get_dense_embedding` starts
with `text.replace(...)`, so a non-string answer raises
`AttributeError` at this point. -/
def embedVal (env : Env) : Val → Except String (List ℝ)
  | .str s => getDenseEmbedding env s
  | _ => .error "AttributeError"

/-- The inner `for j in range(i+1, len(answers))` loop: cosine
similarities of `x` against each later answer, re-embedding both ends of
every pair exactly as the source does. -/
noncomputable def pairSimsWith (env : Env) (x : Val) : List Val → Except String (List ℝ)
  | [] => .ok []
  | y :: ys =>
    match embedVal env x with
    | .error e => .error e
    | .ok e1 =>
      match embedVal env y with
      | .error e => .error e
      | .ok e2 =>
        match pairSimsWith env x ys with
        | .error e => .error e
        | .ok rest => .ok (cosSim e1 e2 :: rest)

/-- The outer `for i in range(len(answers))` loop of the agreement
computation. -/
noncomputable def allPairSims (env : Env) : List Val → Except String (List ℝ)
  | [] => .ok []
  | x :: xs =>
    match pairSimsWith env x xs with
    | .error e => .error e
    | .ok s =>
      match allPairSims env xs with
      | .error e => .error e
      | .ok rest => .ok (s ++ rest)

/-- `answers = [result['payload']['answer'] for result in search_results]`:
a missing `answer` key raises `KeyError`. -/
def extractAnswers : List SearchResult → Except String (List Val)
  | [] => .ok []
  | r :: rs =>
    match List.lookup "answer" r.payload with
    | none => .error "KeyError"
    | some v =>
      match extractAnswers rs with
      | .error e => .error e
      | .ok vs => .ok (v :: vs)

/-- The four confidence factors. -/
structure Breakdown where
  relevance : ℝ
  diversity : ℝ
  agreement : ℝ
  coverage : ℝ

/-- The dictionary returned by `generate_answer`. -/
structure AnswerOutput where
  answer : String
  confidence : ℝ
  breakdown : Breakdown

/-- The fixed record returned when `search_results` is empty. -/
def noInfoAnswer : AnswerOutput :=
  ⟨"No relevant information found.", 0, ⟨0, 0, 0, 0⟩⟩

/-- The context-formatting loop of `generate_answer` (lines 195-201 of
`search_engine.py`): for each result in order it reads
`result['payload']['question']` and `result['payload']['answer']` — a
missing key raises `KeyError` here, before the LLM call — and
`payload.get('summary')` plus the score, collecting the data the prompt
is formatted from. -/
def contextEntries : List SearchResult → Except String (List (Val × Val × Option Val × ℝ))
  | [] => .ok []
  | r :: rs =>
    match List.lookup "question" r.payload with
    | none => .error "KeyError"
    | some q =>
      match List.lookup "answer" r.payload with
      | none => .error "KeyError"
      | some a =>
        match contextEntries rs with
        | .error e => .error e
        | .ok es => .ok ((q, a, List.lookup "summary" r.payload, r.score) :: es)

/-- `HybridSearchEngine.generate_answer`, in the source's evaluation
order: empty-result early return; context formatting (which accesses
every result's `question`/`answer` payload keys); LLM call; top-result
relevance (`score / max_possible_score` with `max_possible_score =
1.0`); source diversity `min(len(search_results)/top_k, 1.0)`; pairwise
answer agreement; coverage; weighted confidence. -/
noncomputable def generateAnswer (env : Env) (query : String)
    (searchResults : List SearchResult) (topk : Nat) : Except String AnswerOutput :=
  match searchResults with
  | [] => .ok noInfoAnswer
  | r0 :: _ =>
    match contextEntries searchResults with
    | .error e => .error e
    | .ok _ctx =>
    match env.llm query searchResults with
    | .error e => .error e
    | .ok response =>
      let topRelevance := r0.score / 1
      let diversity := min ((searchResults.length : ℝ) / (topk : ℝ)) 1
      match extractAnswers searchResults with
      | .error e => .error e
      | .ok answers =>
        match allPairSims env answers with
        | .error e => .error e
        | .ok sims =>
          let agreement := if sims.isEmpty then (0 : ℝ) else sims.sum / (sims.length : ℝ)
          match getDenseEmbedding env response with
          | .error e => .error e
          | .ok answerEmb =>
            match getDenseEmbedding env query with
            | .error e => .error e
            | .ok questionEmb =>
              let coverage := cosSim answerEmb questionEmb
              let confidence :=
                0.4 * topRelevance + 0.2 * diversity + 0.2 * agreement + 0.2 * coverage
              .ok ⟨response, confidence, ⟨topRelevance, diversity, agreement, coverage⟩⟩

/-- Insert `x` into `l` after every element `y` with `le y x` — the
insertion step of a stable insertion sort (equal-key elements keep their
arrival order, as Python's stable `list.sort` guarantees). -/
def insertOrd {α : Type} (le : α → α → Bool) (x : α) : List α → List α
  | [] => [x]
  | y :: ys => if le y x then y :: insertOrd le x ys else x :: y :: ys

/-- Stable sort by the boolean relation `le`, processing elements in
arrival order: a model of Python's stable `list.sort(key=...)`. -/
def sortOrd {α : Type} (le : α → α → Bool) (l : List α) : List α :=
  l.foldl (fun acc x => insertOrd le x acc) []

/-- Modelled from the spec: sparse-vector similarity used by the Vector
Store (an external service; `src/` only issues the query).  Dot product
over matching indices of two sparse vectors. -/
def sparseDot (q v : SparseVec) : ℝ :=
  ((q.indices.zip q.values).map (fun iv =>
    iv.2 * (((v.indices.zip v.values).lookup iv.1).getD 0))).sum

/-- Modelled from the spec: one of the two independent top-`k` retrievals
(section 4.2) — the store's points ranked by descending similarity, ties
kept in stable store order, truncated to `k`. -/
noncomputable def simRank (sim : Point → ℝ) (store : List Point) (k : Nat) : List Point :=
  (sortOrd (fun a b => decide (sim b ≤ sim a)) store).take k

/-- Modelled from the spec: the Reciprocal Rank Fusion score of a point —
the sum, over the ranked lists in which the point appears, of
`1 / (rank_constant + rank)` with 1-based ranks; a point present in only
one list is scored by that list's term alone. -/
noncomputable def rrfScore (c : ℝ) (dl sl : List Point) (p : Point) : ℝ :=
  (match dl.findIdx? (fun q => q.id == p.id) with
   | some r => 1 / (c + ((r : ℝ) + 1))
   | none => 0) +
  (match sl.findIdx? (fun q => q.id == p.id) with
   | some r => 1 / (c + ((r : ℝ) + 1))
   | none => 0)

/-- Modelled from the spec: the candidate set of the fusion — every point
appearing in either ranked list, first occurrence kept, in stable input
order. -/
def dedupById (ps : List Point) : List Point :=
  ps.foldl (fun acc p => if acc.any (fun q => q.id == p.id) then acc else acc ++ [p]) []

/-- Modelled from the spec: the Vector Store's fused dense+sparse query
(`qdrant_client.query_points` with RRF fusion, executed by the external
store): two top-`k` rankings, RRF-scored union, ordered by descending
fused score with stable ties, truncated to `k`. -/
noncomputable def fusedQuery (c : ℝ) (store : List Point) (dq : List ℝ) (sq : SparseVec)
    (k : Nat) : List SearchResult :=
  let dl := simRank (fun p => cosSim dq p.dense) store k
  let sl := simRank (fun p => sparseDot sq p.sparse) store k
  let cands := dedupById (dl ++ sl)
  let scored := cands.map (fun p => (⟨p.id, rrfScore c dl sl p, p.payload⟩ : SearchResult))
  (sortOrd (fun a b => decide (b.score ≤ a.score)) scored).take k

/-- `HybridSearchEngine.hybrid_search`: embed the query (dense then
sparse), issue the fused query with `limit = top_k`, and repackage each
returned point as `{id, score, payload}` preserving order.  Embedding
errors propagate (`raise`). -/
noncomputable def hybridSearch (env : Env) (store : List Point) (c : ℝ)
    (query : String) (topk : Nat) : Except String (List SearchResult) :=
  match getDenseEmbedding env query with
  | .error e => .error e
  | .ok dq =>
    match env.sparseEmbed query with
    | .error e => .error e
    | .ok sq => .ok (fusedQuery c store dq sq topk)

/-- One retrieved item as seen by the bulk processor, generic in the
number type carried by scores (the Python code never computes with the
scores, it only copies them). -/
structure SearchResultG (R : Type) where
  id : Val
  score : R
  payload : List (String × Val)
deriving DecidableEq

/-- The four confidence factors, generic in the number type. -/
structure BreakdownG (R : Type) where
  relevance : R
  diversity : R
  agreement : R
  coverage : R
deriving DecidableEq

/-- The dictionary returned by `search_and_answer` (the Query Pipeline),
as consumed by the bulk processor.  It carries no `status` key, so the
`result.get('status') == 'error'` branch of `process_single_question`
can never fire; the only error path is the `except` clause. -/
structure PipelineAnswer (R : Type) where
  query : String
  search_results : List (SearchResultG R)
  answer : String
  confidence : R
  confidence_breakdown : BreakdownG R
deriving DecidableEq

/-- One formatted source document of a `BulkItemResult`. -/
structure SourceDoc (R : Type) where
  content : Val
  metadata : List (String × Val)
  score : R
deriving DecidableEq

inductive BulkStatus where
  | success
  | error
deriving DecidableEq

/-- The per-question record produced by `BulkProcessor.process_questions`. -/
structure BulkItemResult (R : Type) where
  question : String
  answer : Option String
  confidence : R
  confidence_breakdown : Option (BreakdownG R)
  source_documents : List (SourceDoc R)
  status : BulkStatus
  error_message : Option String
deriving DecidableEq

/-- `process_single_question`: run the injected pipeline
(`search_and_answer`) on one question; an exception is caught and turned
into a `status=error` record carrying `str(e)`; a normal result is
repackaged with its source documents (each payload's absent `content`
key defaults to `""`). -/
def processSingle {R : Type} [Zero R]
    (pipeline : String → Except String (PipelineAnswer R)) (q : String) :
    BulkItemResult R :=
  match pipeline q with
  | .error e => ⟨q, none, 0, none, [], .error, some e⟩
  | .ok res =>
    let sourceDocs := res.search_results.map (fun d =>
      (⟨(List.lookup "content" d.payload).getD (.str ""), d.payload, d.score⟩ : SourceDoc R))
    ⟨q, some res.answer, res.confidence, some res.confidence_breakdown,
      sourceDocs, .success, none⟩

/-- The sort key of `results.sort(key=...)` in `process_questions`:
`questions.index(next(q for q in questions if q['question'] == x['question']))`,
i.e. the index of the first input question whose text equals the
result's question text.  (When no question matches, Python would raise;
every result produced by the run carries one of the input texts, so that
case is unreachable there.) -/
def restoreKey (texts : List String) (r : String) : Nat :=
  texts.indexOf r

/-- The order-restoration step of `process_questions`: the results, in
whatever order the futures completed, are sorted stably by `restoreKey`. -/
def restoreOrder {R : Type} (texts : List String) (rs : List (BulkItemResult R)) :
    List (BulkItemResult R) :=
  sortOrd (fun a b => decide (restoreKey texts a.question ≤ restoreKey texts b.question)) rs

/-- `BulkProcessor.process_questions`.  `texts` are the input question
texts in submission order; `order` is the order in which the worker
pool's futures complete (`as_completed` yields them in an arbitrary
order — theorems quantify over every permutation of the input indices).
Each completed future appends its result, then the collected list is
sorted back. -/
def processQuestions {R : Type} [Zero R]
    (pipeline : String → Except String (PipelineAnswer R))
    (texts : List String) (order : List Nat) : List (BulkItemResult R) :=
  restoreOrder texts ((order.map (fun i => texts.getD i "")).map (processSingle pipeline))

/-- A trivial successful environment used by concrete witnesses: every
text embeds to the one-element dense vector `[1]`, the sparse model
returns the empty sparse vector, and the LLM always answers `"ans"`. -/
def envK : Env where
  embed := fun _ => .ok [1]
  sparseEmbed := fun _ => .ok ⟨[], []⟩
  llm := fun _ _ => .ok "ans"

/-- Modelled from the spec: a required record field is present, a
string, and non-empty. -/
def requiredFieldOk (o : Option Val) : Prop :=
  ∃ s, o = some (.str s) ∧ s ≠ ""

/-- Modelled from the spec: an optional record field, if present, must
be a string (or `None`, which the validator tolerates). -/
def optionalFieldOk (o : Option Val) : Prop :=
  ∀ v, o = some v → v = .noneV ∨ v.isStr = true

/-- Modelled from the spec: the record validity condition of section 4.1
(`question`/`answer` present, string-typed and non-empty; optional
fields string-typed when present). -/
def specValidDoc (d : Doc) : Prop :=
  requiredFieldOk d.question ∧ requiredFieldOk d.answer ∧
    optionalFieldOk d.summary ∧ optionalFieldOk d.answer_type ∧ optionalFieldOk d.date

/-- A concrete always-successful pipeline over rational scores, used by
the bulk-processor counterexample and witnesses. -/
def c1Pipe : String → Except String (PipelineAnswer ℚ) :=
  fun q => .ok ⟨q, [], "ans " ++ q, 0, ⟨0, 0, 0, 0⟩⟩

/-- A pipeline rigged to raise on `"Q2"`, the bulk scenario of the
specification's section 8. -/
def c4Pipe : String → Except String (PipelineAnswer ℚ) :=
  fun q => if q = "Q2" then .error "boom" else .ok ⟨q, [], "ans " ++ q, 0, ⟨0, 0, 0, 0⟩⟩

/-- Modelled from the spec: a confidence factor clamped to the unit
interval. -/
noncomputable def clamp01 (x : ℝ) : ℝ := max 0 (min 1 x)

/-- Modelled from the spec: the mean pairwise cosine similarity between
the dense embeddings (`D`) of the returned answers; `0` when there are
fewer than two answers (no pairs to compare). -/
noncomputable def meanPairwiseCosSim (D : Val → List ℝ) (answers : List Val) : ℝ :=
  if (pairsOf answers).isEmpty then 0
  else ((pairsOf answers).map fun p => cosSim (D p.1) (D p.2)).sum / ((pairsOf answers).length : ℝ)

theorem insertOrd_perm {α : Type} (le : α → α → Bool) (x : α) (l : List α) :
    List.Perm (insertOrd le x l) (x :: l) := by
  induction l with
  | nil => rfl
  | cons y ys ih =>
    by_cases h : le y x = true
    · simp only [insertOrd, h, if_true]
      exact (ih.cons y).trans (List.Perm.swap x y ys)
    · simp [insertOrd, h]

theorem sortOrd_aux_perm {α : Type} (le : α → α → Bool) :
    ∀ (l acc : List α), List.Perm (l.foldl (fun acc x => insertOrd le x acc) acc) (acc ++ l) := by
  intro l
  induction l with
  | nil => intro acc; simp
  | cons x xs ih =>
    intro acc
    have h1 : List.Perm (xs.foldl (fun acc x => insertOrd le x acc) (insertOrd le x acc))
        (insertOrd le x acc ++ xs) := ih _
    have h2 : List.Perm (insertOrd le x acc ++ xs) ((x :: acc) ++ xs) :=
      (insertOrd_perm le x acc).append_right xs
    exact (h1.trans h2).trans List.perm_middle.symm

theorem sortOrd_perm {α : Type} (le : α → α → Bool) (l : List α) :
    List.Perm (sortOrd le l) l :=
  sortOrd_aux_perm le l []

theorem sortOrd_length {α : Type} (le : α → α → Bool) (l : List α) :
    (sortOrd le l).length = l.length :=
  (sortOrd_perm le l).length_eq

theorem insertOrd_pairwise {α : Type} (le : α → α → Bool)
    (htot : ∀ a b, le a b = true ∨ le b a = true)
    (htrans : ∀ a b c, le a b = true → le b c = true → le a c = true)
    (x : α) (l : List α) (hl : l.Pairwise (fun a b => le a b = true)) :
    (insertOrd le x l).Pairwise (fun a b => le a b = true) := by
  induction l with
  | nil => simp [insertOrd]
  | cons y ys ih =>
    rcases List.pairwise_cons.1 hl with ⟨hy, hys⟩
    by_cases h : le y x = true
    · simp only [insertOrd, h, if_true]
      refine List.pairwise_cons.2 ⟨?_, ih hys⟩
      intro z hz
      rcases List.mem_cons.1 ((insertOrd_perm le x ys).mem_iff.1 hz) with rfl | hz'
      · exact h
      · exact hy z hz'
    · simp only [insertOrd, h, if_false, Bool.false_eq_true]
      refine List.pairwise_cons.2 ⟨?_, hl⟩
      intro z hz
      have hxy : le x y = true := (htot x y).resolve_right (by simpa using h)
      rcases List.mem_cons.1 hz with rfl | hz'
      · exact hxy
      · exact htrans x y z hxy (hy z hz')

theorem sortOrd_pairwise {α : Type} (le : α → α → Bool)
    (htot : ∀ a b, le a b = true ∨ le b a = true)
    (htrans : ∀ a b c, le a b = true → le b c = true → le a c = true)
    (l : List α) : (sortOrd le l).Pairwise (fun a b => le a b = true) := by
  suffices h : ∀ (l acc : List α), acc.Pairwise (fun a b => le a b = true) →
      (l.foldl (fun acc x => insertOrd le x acc) acc).Pairwise (fun a b => le a b = true) from
    h l [] (List.Pairwise.nil)
  intro l
  induction l with
  | nil => intro acc hacc; exact hacc
  | cons x xs ih =>
    intro acc hacc
    exact ih _ (insertOrd_pairwise le htot htrans x acc hacc)

/-- C2: calling the Answer Synthesizer (`generate_answer`) with an empty
`search_results` list returns, for every environment, query and `top_k`,
the fixed no-information answer with confidence `0.0` and all four
breakdown factors `0.0`; the call succeeds (never raises) even though
every external oracle may fail. -/
theorem generateAnswer_empty_fixed (env : Env) (query : String) (topk : Nat) :
    generateAnswer env query [] topk =
      .ok ⟨"No relevant information found.", 0, ⟨0, 0, 0, 0⟩⟩ := rfl

/-- C9: every `BulkItemResult` produced by `process_questions` with
`status = error` carries `answer = None`, `confidence = 0.0`,
`confidence_breakdown = None` and empty `source_documents`. -/
theorem errorResult_no_partial_data {R : Type} [Zero R]
    (pipeline : String → Except String (PipelineAnswer R))
    (texts : List String) (order : List Nat) (r : BulkItemResult R)
    (hmem : r ∈ processQuestions pipeline texts order)
    (herr : r.status = .error) :
    r.answer = none ∧ r.confidence = 0 ∧ r.confidence_breakdown = none ∧
      r.source_documents = [] := by
  have hmem' : r ∈ (order.map (fun i => texts.getD i "")).map (processSingle pipeline) :=
    (sortOrd_perm _ _).mem_iff.1 hmem
  rcases List.mem_map.1 hmem' with ⟨q, _, rfl⟩
  rcases hp : pipeline q with e | res
  · simp [processSingle, hp]
  · simp [processSingle, hp] at herr

/-- Witness for C9 at a concrete failing run. -/
theorem errorResult_no_partial_data_witness :
    (⟨"Q", none, 0, none, [], .error, some "boom"⟩ : BulkItemResult ℚ) ∈
        processQuestions (fun _ => .error "boom") ["Q"] [0] ∧
      (⟨"Q", none, 0, none, [], .error, some "boom"⟩ : BulkItemResult ℚ).status = .error ∧
      ((⟨"Q", none, 0, none, [], .error, some "boom"⟩ : BulkItemResult ℚ).answer = none ∧
        (⟨"Q", none, 0, none, [], .error, some "boom"⟩ : BulkItemResult ℚ).confidence = 0 ∧
        (⟨"Q", none, 0, none, [], .error, some "boom"⟩ : BulkItemResult ℚ).confidence_breakdown
          = none ∧
        (⟨"Q", none, 0, none, [], .error, some "boom"⟩ : BulkItemResult ℚ).source_documents
          = []) :=
  ⟨by decide, by decide,
    errorResult_no_partial_data (fun _ => .error "boom") ["Q"] [0] _ (by decide) (by decide)⟩

/-- C10: whenever `index_document` succeeds, the stored id equals the
document's `id` when one is present and equals the fresh UUID otherwise,
the upserted point carries that id, and the upserted payload consists of
exactly the keys `question`, `answer`, `summary`, `answer_type`, `date`
in that order. -/
theorem indexDocument_id_payload (env : Env) (freshId : String) (doc : Doc)
    (sid : Val) (pt : Point)
    (h : indexDocument env freshId doc = .ok (sid, pt)) :
    pt.payload.map Prod.fst = ["question", "answer", "summary", "answer_type", "date"]
    ∧ (∀ v, doc.id = some v → sid = v)
    ∧ (doc.id = none → sid = .str freshId)
    ∧ pt.id = sid := by
  unfold indexDocument at h
  rcases hq : doc.question with _ | q <;> rcases ha : doc.answer with _ | a <;>
    simp only [hq, ha] at h
  · exact absurd h (by simp)
  · exact absurd h (by simp)
  · exact absurd h (by simp)
  rcases hd : getDenseEmbedding env ("Question: " ++ q.format ++ " Answer: " ++ a.format) with
    e | dense
  · rw [hd] at h; exact absurd h (by simp)
  rw [hd] at h
  rcases hs : env.sparseEmbed ("Question: " ++ q.format ++ " Answer: " ++ a.format) with
    e | sparse
  · rw [hs] at h; exact absurd h (by simp)
  rw [hs] at h
  simp only [Except.ok.injEq, Prod.mk.injEq] at h
  obtain ⟨rfl, rfl⟩ := h
  refine ⟨rfl, ?_, ?_, rfl⟩
  · intro v hv; simp [hv]
  · intro hv; simp [hv]

/-- Witness for C10 at a concrete document without an id. -/
theorem indexDocument_id_payload_witness :
    indexDocument envK "u-1"
        { question := some (.str "q"), answer := some (.str "a") } =
      .ok (.str "u-1",
        ⟨.str "u-1", [1], ⟨[], []⟩,
          [("question", .str "q"), ("answer", .str "a"), ("summary", .str ""),
            ("answer_type", .str ""), ("date", .str "")]⟩) ∧
      ((⟨.str "u-1", [1], ⟨[], []⟩,
          [("question", .str "q"), ("answer", .str "a"), ("summary", .str ""),
            ("answer_type", .str ""), ("date", .str "")]⟩ : Point).payload.map Prod.fst
          = ["question", "answer", "summary", "answer_type", "date"]
        ∧ (∀ v, ({ question := some (.str "q"), answer := some (.str "a") } : Doc).id = some v →
            Val.str "u-1" = v)
        ∧ (({ question := some (.str "q"), answer := some (.str "a") } : Doc).id = none →
            Val.str "u-1" = .str "u-1")
        ∧ (⟨.str "u-1", [1], ⟨[], []⟩,
            [("question", .str "q"), ("answer", .str "a"), ("summary", .str ""),
              ("answer_type", .str ""), ("date", .str "")]⟩ : Point).id = .str "u-1") :=
  ⟨rfl, indexDocument_id_payload envK "u-1" _ _ _ rfl⟩

/-- Counterexample to C8: a valid record that omits `answer_type`, handed
to `index_document`, is stored with `answer_type = ""` (the default at
line 83 of `search_engine.py`), not `"general"`. -/
theorem indexDocument_answer_type_empty :
    indexDocument envK "u-2" { question := some (.str "q"), answer := some (.str "a") } =
      .ok (.str "u-2",
        ⟨.str "u-2", [1], ⟨[], []⟩,
          [("question", .str "q"), ("answer", .str "a"), ("summary", .str ""),
            ("answer_type", .str ""), ("date", .str "")]⟩) ∧
      List.lookup "answer_type"
          [("question", Val.str "q"), ("answer", Val.str "a"), ("summary", Val.str ""),
            ("answer_type", Val.str ""), ("date", Val.str "")] = some (.str "") ∧
      Val.str "" ≠ Val.str "general" :=
  ⟨rfl, by decide, by decide⟩

/-- C8 as amended: the `"general"` default is applied by
`clean_document`, not by the indexer — a record that omits `answer_type`
and goes through the validated ingestion path (`clean_document` before
indexing) is stored with `answer_type = "general"`, while
`index_document` alone defaults the missing field to `""`. -/
theorem cleanDocument_answer_type_general (env : Env) (freshId : String) (d : Doc)
    (hnoat : d.answer_type = none) :
    (cleanDocument d).answer_type = some (.str "general")
    ∧ (∀ sid pt, indexDocument env freshId (cleanDocument d) = .ok (sid, pt) →
        List.lookup "answer_type" pt.payload = some (.str "general")) := by
  constructor
  · simp [cleanDocument, hnoat]
  · intro sid pt h
    unfold indexDocument at h
    rcases hq : (cleanDocument d).question with _ | q <;>
      rcases ha : (cleanDocument d).answer with _ | a <;> simp only [hq, ha] at h
    · exact absurd h (by simp)
    · exact absurd h (by simp)
    · exact absurd h (by simp)
    rcases hd : getDenseEmbedding env ("Question: " ++ q.format ++ " Answer: " ++ a.format) with
      e | dense
    · rw [hd] at h; exact absurd h (by simp)
    rw [hd] at h
    rcases hs : env.sparseEmbed ("Question: " ++ q.format ++ " Answer: " ++ a.format) with
      e | sparse
    · rw [hs] at h; exact absurd h (by simp)
    rw [hs] at h
    simp only [Except.ok.injEq, Prod.mk.injEq] at h
    obtain ⟨rfl, rfl⟩ := h
    simp [List.lookup, cleanDocument, hnoat]

/-- Witness for the amended C8 at a concrete record without
`answer_type`. -/
theorem cleanDocument_answer_type_general_witness :
    ({ question := some (.str "q"), answer := some (.str "a") } : Doc).answer_type = none ∧
      ((cleanDocument { question := some (.str "q"), answer := some (.str "a") }).answer_type
          = some (.str "general")
        ∧ (∀ sid pt, indexDocument envK "u-3"
              (cleanDocument { question := some (.str "q"), answer := some (.str "a") }) =
              .ok (sid, pt) →
            List.lookup "answer_type" pt.payload = some (.str "general"))) :=
  ⟨rfl, cleanDocument_answer_type_general envK "u-3" _ rfl⟩

theorem required_guard_iff (o : Option Val) :
    ((o.all fun v => !v.truthy) = false ∧ (o.getD .noneV).isStr = true) ↔
      requiredFieldOk o := by
  cases o with
  | none => simp [requiredFieldOk]
  | some v => cases v <;> simp [Val.truthy, Val.isStr, requiredFieldOk]

theorem optional_guard_iff (o : Option Val) :
    (o.any fun v => v ≠ .noneV && !v.isStr) = false ↔ optionalFieldOk o := by
  cases o with
  | none => simp [optionalFieldOk]
  | some v => cases v <;> simp [Val.isStr, optionalFieldOk]

theorem validateDocument_true_iff (d : Doc) :
    (validateDocument d).1 = true ↔
      ((d.question.all fun v => !v.truthy) = false
      ∧ (d.answer.all fun v => !v.truthy) = false
      ∧ (((d.question.getD .noneV).isStr && (d.answer.getD .noneV).isStr) = true)
      ∧ (d.summary.any fun v => v ≠ .noneV && !v.isStr) = false
      ∧ (d.answer_type.any fun v => v ≠ .noneV && !v.isStr) = false
      ∧ (d.date.any fun v => v ≠ .noneV && !v.isStr) = false) := by
  unfold validateDocument
  split_ifs with g1 g2 g3 g4 g5 g6 <;> simp_all
  rcases g3 with h | h <;> intro hq ha <;> simp_all

theorem validateDocument_iff (d : Doc) :
    (validateDocument d).1 = true ↔ specValidDoc d := by
  rw [validateDocument_true_iff]
  unfold specValidDoc
  rw [← required_guard_iff d.question, ← required_guard_iff d.answer,
    ← optional_guard_iff d.summary, ← optional_guard_iff d.answer_type,
    ← optional_guard_iff d.date]
  simp only [Bool.and_eq_true]
  tauto

/-- Counterexample to C5: rejection carries no error value naming the
invalid field.  `validate_document` returns a bare `False`; the only
reported reason is a log warning, and for a string-type failure that
warning is the same fixed text whether `question` or `answer` is the
invalid field — the rejection does not name the invalid field, and no
`ValidationError` is raised. -/
theorem validateDocument_rejection_anonymous :
    validateDocument { question := some (.intV 1), answer := some (.str "a") } =
        (false, ["Question and answer must be strings"]) ∧
      validateDocument { question := some (.str "q"), answer := some (.intV 1) } =
        (false, ["Question and answer must be strings"]) ∧
      validateDocument { question := some (.intV 1), answer := some (.str "a") } =
        validateDocument { question := some (.str "q"), answer := some (.intV 1) } := by
  refine ⟨by decide, by decide, by decide⟩

/-- C5 as amended: a record failing validation (required field missing,
falsy or non-string; optional field present, non-`None` and non-string)
is rejected — `validate_document` returns `False`, with the reason only
logged — and `validate_and_clean` skips it and continues: it returns
exactly the cleaned valid records, every valid record of the batch is
kept, and every output comes from a valid input record. -/
theorem validateAndClean_skips_invalid (d : Doc) (docs : List Doc) :
    ((validateDocument d).1 = true ↔ specValidDoc d)
    ∧ validateAndClean docs =
        (docs.filter (fun x => (validateDocument x).1)).map cleanDocument
    ∧ (specValidDoc d → d ∈ docs → cleanDocument d ∈ validateAndClean docs)
    ∧ (∀ r ∈ validateAndClean docs,
        ∃ x, x ∈ docs ∧ (validateDocument x).1 = true ∧ r = cleanDocument x) := by
  refine ⟨validateDocument_iff d, rfl, ?_, ?_⟩
  · intro hval hmem
    unfold validateAndClean
    exact List.mem_map_of_mem cleanDocument
      (List.mem_filter.2 ⟨hmem, (validateDocument_iff d).2 hval⟩)
  · intro r hr
    unfold validateAndClean at hr
    rcases List.mem_map.1 hr with ⟨x, hx, rfl⟩
    rcases List.mem_filter.1 hx with ⟨hxd, hxv⟩
    exact ⟨x, hxd, hxv, rfl⟩

/-- Witness for the amended C5: a batch with one valid and one invalid
record keeps exactly the cleaned valid record. -/
theorem validateAndClean_skips_invalid_witness :
    specValidDoc { question := some (.str "q"), answer := some (.str "a") } ∧
      ({ question := some (.str "q"), answer := some (.str "a") } : Doc) ∈
        [{ question := some (.str "q"), answer := some (.str "a") },
          { question := some (.intV 1), answer := some (.str "a") }] ∧
      cleanDocument { question := some (.str "q"), answer := some (.str "a") } ∈
        validateAndClean
          [{ question := some (.str "q"), answer := some (.str "a") },
            { question := some (.intV 1), answer := some (.str "a") }] := by
  have hv : specValidDoc { question := some (.str "q"), answer := some (.str "a") } :=
    (validateAndClean_skips_invalid
      { question := some (.str "q"), answer := some (.str "a") } []).1.1 (by decide)
  exact ⟨hv, by decide,
    (validateAndClean_skips_invalid { question := some (.str "q"), answer := some (.str "a") }
      [{ question := some (.str "q"), answer := some (.str "a") },
        { question := some (.intV 1), answer := some (.str "a") }]).2.2.1 hv (by decide)⟩

theorem processSingle_question {R : Type} [Zero R]
    (pipeline : String → Except String (PipelineAnswer R)) (q : String) :
    (processSingle pipeline q).question = q := by
  cases hp : pipeline q <;> simp [processSingle, hp]

theorem map_getD_range {α : Type} (l : List α) (dflt : α) :
    (List.range l.length).map (fun i => l.getD i dflt) = l := by
  apply List.ext_getElem
  · simp
  · intro i h1 h2
    simp only [List.getElem_map, List.getElem_range]
    exact List.getD_eq_getElem l dflt h2

theorem restoreKey_processSingle {R : Type} [Zero R]
    (pipeline : String → Except String (PipelineAnswer R))
    (texts : List String) (hnodup : texts.Nodup) (i : Nat) (hi : i < texts.length) :
    restoreKey texts (processSingle (R := R) pipeline (texts.getD i "")).question = i := by
  rw [processSingle_question]
  unfold restoreKey
  rw [List.getD_eq_getElem texts "" hi]
  exact List.indexOf_getElem hnodup i hi

/-- C1 as amended: when the input question texts are pairwise distinct,
`process_questions` returns its results in input order for every
completion order of the worker futures — the order is restored not by
writing each result into a slot at its original index but by a stable
sort whose key searches the input list for the first question whose text
equals the result's question text; with duplicate question texts that
key is not injective and the output order can deviate from the input
order (see the counterexample). -/
theorem processQuestions_order_distinct {R : Type} [Zero R]
    (pipeline : String → Except String (PipelineAnswer R))
    (texts : List String) (order : List Nat)
    (hnodup : texts.Nodup) (horder : List.Perm order (List.range texts.length)) :
    (processQuestions pipeline texts order).map (fun r => r.question) = texts := by
  have hmem_lt : ∀ i ∈ order, i < texts.length := fun i hi =>
    List.mem_range.1 (horder.mem_iff.1 hi)
  have hdef : processQuestions pipeline texts order =
      sortOrd (fun a b =>
          decide (restoreKey texts a.question ≤ restoreKey texts b.question))
        (order.map (fun i => processSingle pipeline (texts.getD i ""))) := by
    unfold processQuestions restoreOrder
    rw [List.map_map]
    rfl
  have hkeyf : ∀ i ∈ order,
      restoreKey texts (processSingle (R := R) pipeline (texts.getD i "")).question = i :=
    fun i hi => restoreKey_processSingle pipeline texts hnodup i (hmem_lt i hi)
  rw [hdef]
  set le : BulkItemResult R → BulkItemResult R → Bool := fun a b =>
    decide (restoreKey texts a.question ≤ restoreKey texts b.question) with hle
  set f : Nat → BulkItemResult R := fun i => processSingle pipeline (texts.getD i "") with hf
  set out := sortOrd le (order.map f) with hout
  have hperm : List.Perm out (order.map f) := sortOrd_perm le (order.map f)
  have hpw : out.Pairwise (fun a b => le a b = true) :=
    sortOrd_pairwise le
      (fun a b => by
        rcases Nat.le_total (restoreKey texts a.question) (restoreKey texts b.question) with
          h | h
        · exact Or.inl (by simp [hle, h])
        · exact Or.inr (by simp [hle, h]))
      (fun a b c hab hbc => by
        simp only [hle, decide_eq_true_eq] at hab hbc ⊢
        exact le_trans hab hbc)
      (order.map f)
  have hkeys : (order.map f).map (fun r => restoreKey texts r.question) = order := by
    rw [List.map_map]
    exact (List.map_congr_left hkeyf).trans (List.map_id order)
  have hkperm : List.Perm (out.map fun r => restoreKey texts r.question)
      (List.range texts.length) := by
    refine List.Perm.trans ?_ horder
    rw [← hkeys]
    exact hperm.map _
  have hksorted : (out.map fun r => restoreKey texts r.question).Sorted (· ≤ ·) := by
    rw [List.Sorted, List.pairwise_map]
    exact hpw.imp (fun h => by simpa [hle] using h)
  have houtkeys : (out.map fun r => restoreKey texts r.question)
      = List.range texts.length :=
    List.eq_of_perm_of_sorted hkperm hksorted (List.sorted_le_range _)
  have hself : ∀ r ∈ out, r = f (restoreKey texts r.question) := by
    intro r hr
    rcases List.mem_map.1 (hperm.mem_iff.1 hr) with ⟨i, hi, rfl⟩
    rw [hkeyf i hi]
  have hrebuild : out = (List.range texts.length).map f := by
    rw [← houtkeys, List.map_map]
    exact ((List.map_congr_left (fun r hr => (hself r hr).symm)).trans
      (List.map_id out)).symm
  rw [hrebuild, List.map_map]
  have hq : ∀ i, ((fun r => r.question) ∘ f) i = texts.getD i "" := fun i =>
    processSingle_question pipeline (texts.getD i "")
  calc (List.range texts.length).map ((fun r : BulkItemResult R => r.question) ∘ f)
      = (List.range texts.length).map (fun i => texts.getD i "") :=
        List.map_congr_left (fun i _ => hq i)
    _ = texts := map_getD_range texts ""

/-- Counterexample to C1: with duplicate question texts the output order
deviates from the input order even when the futures complete in
submission order, because the restoration step is a stable sort keyed by
the index of the *first* question with equal text, not a write into the
original slot.  Input `["A","q","B","q"]` comes back as
`["A","q","q","B"]`. -/
theorem processQuestions_duplicate_misorder :
    [0, 1, 2, 3] = List.range 4 ∧
      (processQuestions c1Pipe ["A", "q", "B", "q"] [0, 1, 2, 3]).map (fun r => r.question)
        = ["A", "q", "q", "B"] ∧
      (processQuestions c1Pipe ["A", "q", "B", "q"] [0, 1, 2, 3]).map (fun r => r.question)
        ≠ ["A", "q", "B", "q"] :=
  ⟨by decide, by decide, by decide⟩

/-- Witness for the amended C1: distinct texts, futures completing in
reversed order, results back in input order. -/
theorem processQuestions_order_distinct_witness :
    (["a", "b"] : List String).Nodup ∧
      List.Perm [1, 0] (List.range 2) ∧
      (processQuestions c1Pipe ["a", "b"] [1, 0]).map (fun r => r.question) = ["a", "b"] := by
  have hp : List.Perm [1, 0] (List.range 2) := List.Perm.swap 0 1 []
  exact ⟨by decide, hp, processQuestions_order_distinct c1Pipe ["a", "b"] [1, 0] (by decide) hp⟩

/-- C4: a pipeline exception for one question is caught and converted
into a `status=error` record whose `error_message` is the exception
text; sibling units are unaffected — the run completes with exactly one
result per input question, and the multiset of results is exactly the
per-question results of the isolated units. -/
theorem processQuestions_isolates_errors {R : Type} [Zero R]
    (pipeline : String → Except String (PipelineAnswer R))
    (texts : List String) (order : List Nat)
    (horder : List.Perm order (List.range texts.length))
    (q e : String) (hq : pipeline q = .error e) :
    (processQuestions pipeline texts order).length = texts.length
    ∧ List.Perm (processQuestions pipeline texts order)
        (texts.map (processSingle pipeline))
    ∧ processSingle pipeline q = ⟨q, none, 0, none, [], .error, some e⟩ := by
  have hperm0 : List.Perm (processQuestions pipeline texts order)
      ((order.map (fun i => texts.getD i "")).map (processSingle pipeline)) :=
    sortOrd_perm _ _
  have hmap : List.Perm
      ((order.map (fun i => texts.getD i "")).map (processSingle pipeline))
      (texts.map (processSingle pipeline)) := by
    have h1 : List.Perm (order.map (fun i => texts.getD i ""))
        ((List.range texts.length).map (fun i => texts.getD i "")) := horder.map _
    rw [map_getD_range texts ""] at h1
    exact h1.map _
  refine ⟨?_, hperm0.trans hmap, ?_⟩
  · exact ((hperm0.trans hmap).length_eq).trans (List.length_map _ _)
  · simp [processSingle, hq]

/-- Witness for C4 at the rigged three-question scenario; the run
returns, in input order, success for Q1, the error record for Q2 and
success for Q3. -/
theorem processQuestions_isolates_errors_witness :
    c4Pipe "Q2" = .error "boom" ∧
      List.Perm [0, 1, 2] (List.range 3) ∧
      ((processQuestions c4Pipe ["Q1", "Q2", "Q3"] [0, 1, 2]).length = 3
        ∧ List.Perm (processQuestions c4Pipe ["Q1", "Q2", "Q3"] [0, 1, 2])
            (["Q1", "Q2", "Q3"].map (processSingle c4Pipe))
        ∧ processSingle c4Pipe "Q2" = ⟨"Q2", none, 0, none, [], .error, some "boom"⟩) ∧
      processQuestions c4Pipe ["Q1", "Q2", "Q3"] [0, 1, 2] =
        [⟨"Q1", some "ans Q1", 0, some ⟨0, 0, 0, 0⟩, [], .success, none⟩,
          ⟨"Q2", none, 0, none, [], .error, some "boom"⟩,
          ⟨"Q3", some "ans Q3", 0, some ⟨0, 0, 0, 0⟩, [], .success, none⟩] := by
  have hp : List.Perm [0, 1, 2] (List.range 3) := by
    rw [show List.range 3 = [0, 1, 2] by decide]
  exact ⟨rfl, hp,
    processQuestions_isolates_errors c4Pipe ["Q1", "Q2", "Q3"] [0, 1, 2] hp "Q2" "boom"
      rfl, by decide⟩

/-- C7: whatever the store and environment, a successful `hybrid_search`
returns at most `top_k` results sorted by non-increasing fused score,
and an empty store yields the empty list (a success, not an error)
whenever the query embeddings succeed. -/
theorem hybridSearch_contract (env : Env) (store : List Point) (c : ℝ)
    (query : String) (topk : Nat) (hk : 1 ≤ topk) :
    (∀ res, hybridSearch env store c query topk = .ok res →
      res.length ≤ topk ∧ res.Pairwise (fun a b => b.score ≤ a.score))
    ∧ (∀ dq sq, getDenseEmbedding env query = .ok dq → env.sparseEmbed query = .ok sq →
        store = [] → hybridSearch env store c query topk = .ok []) := by
  constructor
  · intro res h
    unfold hybridSearch at h
    rcases hdq : getDenseEmbedding env query with e | dq
    · rw [hdq] at h; exact absurd h (by simp)
    rw [hdq] at h
    rcases hsq : env.sparseEmbed query with e | sq
    · rw [hsq] at h; exact absurd h (by simp)
    rw [hsq] at h
    simp only [Except.ok.injEq] at h
    subst h
    constructor
    · exact List.length_take_le topk _
    · have hpw := sortOrd_pairwise
        (fun a b : SearchResult => decide (b.score ≤ a.score))
        (fun a b => by
          rcases le_total b.score a.score with hab | hab
          · exact Or.inl (decide_eq_true hab)
          · exact Or.inr (decide_eq_true hab))
        (fun a b cc hab hbc => decide_eq_true
          (le_trans (of_decide_eq_true hbc) (of_decide_eq_true hab)))
        ((dedupById
            (simRank (fun p => cosSim dq p.dense) store topk ++
              simRank (fun p => sparseDot sq p.sparse) store topk)).map
          (fun p => (⟨p.id, rrfScore c
              (simRank (fun p => cosSim dq p.dense) store topk)
              (simRank (fun p => sparseDot sq p.sparse) store topk) p,
            p.payload⟩ : SearchResult)))
      exact ((hpw.sublist (List.take_sublist _ _)).imp (fun h => of_decide_eq_true h))
  · intro dq sq hdq hsq hstore
    subst hstore
    unfold hybridSearch
    rw [hdq, hsq]
    simp [fusedQuery, simRank, dedupById, sortOrd]

/-- Witness for C7: the empty store with trivially succeeding embeddings
returns the empty result list. -/
theorem hybridSearch_contract_witness :
    (1 : Nat) ≤ 1 ∧ hybridSearch envK [] 0 "q" 1 = .ok [] :=
  ⟨by decide,
    (hybridSearch_contract envK [] 0 "q" 1 (by decide)).2 [1] ⟨[], []⟩ rfl rfl rfl⟩

theorem generateAnswer_ok_shape (env : Env) (query : String) (r0 : SearchResult)
    (rest : List SearchResult) (topk : Nat) (out : AnswerOutput)
    (h : generateAnswer env query (r0 :: rest) topk = .ok out) :
    ∃ ctx response answers sims answerEmb questionEmb,
      contextEntries (r0 :: rest) = .ok ctx ∧
      env.llm query (r0 :: rest) = .ok response ∧
      extractAnswers (r0 :: rest) = .ok answers ∧
      allPairSims env answers = .ok sims ∧
      getDenseEmbedding env response = .ok answerEmb ∧
      getDenseEmbedding env query = .ok questionEmb ∧
      out = ⟨response,
        0.4 * (r0.score / 1)
          + 0.2 * min (((r0 :: rest).length : ℝ) / (topk : ℝ)) 1
          + 0.2 * (if sims.isEmpty then (0 : ℝ) else sims.sum / (sims.length : ℝ))
          + 0.2 * cosSim answerEmb questionEmb,
        ⟨r0.score / 1, min (((r0 :: rest).length : ℝ) / (topk : ℝ)) 1,
          if sims.isEmpty then (0 : ℝ) else sims.sum / (sims.length : ℝ),
          cosSim answerEmb questionEmb⟩⟩ := by
  unfold generateAnswer at h
  rcases hctx : contextEntries (r0 :: rest) with e | ctx
  · simp only [hctx] at h; exact absurd h (by simp)
  simp only [hctx] at h
  rcases hllm : env.llm query (r0 :: rest) with e | response
  · simp only [hllm] at h; exact absurd h (by simp)
  simp only [hllm] at h
  rcases hans : extractAnswers (r0 :: rest) with e | answers
  · simp only [hans] at h; exact absurd h (by simp)
  simp only [hans] at h
  rcases hsims : allPairSims env answers with e | sims
  · simp only [hsims] at h; exact absurd h (by simp)
  simp only [hsims] at h
  rcases haE : getDenseEmbedding env response with e | answerEmb
  · simp only [haE] at h; exact absurd h (by simp)
  simp only [haE] at h
  rcases hqE : getDenseEmbedding env query with e | questionEmb
  · simp only [hqE] at h; exact absurd h (by simp)
  simp only [hqE] at h
  simp only [Except.ok.injEq] at h
  exact ⟨ctx, response, answers, sims, answerEmb, questionEmb, rfl, rfl, rfl, hsims, haE, rfl, h.symm⟩

/-- C3 as amended: for every successful `generate_answer` call on a
non-empty result list, the returned confidence equals the weighted sum
`0.4*relevance + 0.2*diversity + 0.2*agreement + 0.2*coverage` of the
factors exactly as returned in the breakdown — no clamping is applied to
any factor — and whenever every factor happens to lie in `[0,1]` the
confidence lies in `[0,1]`. -/
theorem generateAnswer_confidence_formula (env : Env) (query : String)
    (rs : List SearchResult) (topk : Nat) (out : AnswerOutput)
    (hne : rs ≠ []) (hk : 0 < topk)
    (h : generateAnswer env query rs topk = .ok out) :
    out.confidence = 0.4 * out.breakdown.relevance + 0.2 * out.breakdown.diversity
        + 0.2 * out.breakdown.agreement + 0.2 * out.breakdown.coverage
    ∧ ((0 ≤ out.breakdown.relevance ∧ out.breakdown.relevance ≤ 1) →
       (0 ≤ out.breakdown.diversity ∧ out.breakdown.diversity ≤ 1) →
       (0 ≤ out.breakdown.agreement ∧ out.breakdown.agreement ≤ 1) →
       (0 ≤ out.breakdown.coverage ∧ out.breakdown.coverage ≤ 1) →
       0 ≤ out.confidence ∧ out.confidence ≤ 1) := by
  rcases rs with _ | ⟨r0, rest⟩
  · exact absurd rfl hne
  rcases generateAnswer_ok_shape env query r0 rest topk out h with
    ⟨ctx, response, answers, sims, answerEmb, questionEmb, _, _, _, _, _, _, rfl⟩
  refine ⟨rfl, ?_⟩
  rintro ⟨hr0, hr1⟩ ⟨hd0, hd1⟩ ⟨ha0, ha1⟩ ⟨hc0, hc1⟩
  constructor
  · have := mul_nonneg (by norm_num : (0.4 : ℝ) ≥ 0).le hr0
    nlinarith
  · nlinarith

/-- Counterexample to C3: a run whose top score is `2.0` (scores are not
clamped by the code) yields confidence `1.04` — different from the
claimed weighted sum of clamped factors (`0.64`) and outside `[0,1]`. -/
theorem generateAnswer_not_clamped :
    generateAnswer envK "q" [⟨.str "1", 2, [("question", .str "pq"), ("answer", .str "pa")]⟩] 5 =
        .ok ⟨"ans", 1.04, ⟨2, 1 / 5, 0, 1⟩⟩ ∧
      (1.04 : ℝ) ≠ 0.4 * clamp01 2 + 0.2 * clamp01 (1 / 5)
          + 0.2 * clamp01 0 + 0.2 * clamp01 1 ∧
      (1 : ℝ) < 1.04 := by
  refine ⟨?_, ?_, by norm_num⟩
  · unfold generateAnswer
    have hctx : contextEntries [⟨.str "1", 2, [("question", .str "pq"), ("answer", .str "pa")]⟩]
        = .ok [(.str "pq", .str "pa", none, 2)] := rfl
    have hext : extractAnswers [⟨.str "1", 2, [("question", .str "pq"), ("answer", .str "pa")]⟩]
        = .ok [.str "pa"] := rfl
    norm_num [hctx, hext, allPairSims, pairSimsWith, embedVal,
      getDenseEmbedding, envK, cosSim, dotList, noInfoAnswer, Real.sqrt_one]
  · unfold clamp01
    norm_num

theorem w1_eval :
    generateAnswer envK "q" [⟨.str "1", 1, [("question", .str "pq"), ("answer", .str "pa")]⟩] 1 =
      .ok ⟨"ans", 0.8, ⟨1, 1, 0, 1⟩⟩ := by
  unfold generateAnswer
  have hctx : contextEntries [⟨.str "1", 1, [("question", .str "pq"), ("answer", .str "pa")]⟩]
      = .ok [(.str "pq", .str "pa", none, 1)] := rfl
  have hext : extractAnswers [⟨.str "1", 1, [("question", .str "pq"), ("answer", .str "pa")]⟩]
      = .ok [.str "pa"] := rfl
  norm_num [hctx, hext, allPairSims, pairSimsWith, embedVal,
    getDenseEmbedding, envK, cosSim, dotList, Real.sqrt_one]

/-- Witness for the amended C3 at a concrete one-result run. -/
theorem generateAnswer_confidence_formula_witness :
    ([⟨.str "1", 1, [("question", .str "pq"), ("answer", .str "pa")]⟩] : List SearchResult) ≠ [] ∧
      (0 : Nat) < 1 ∧
      generateAnswer envK "q" [⟨.str "1", 1, [("question", .str "pq"), ("answer", .str "pa")]⟩] 1 =
        .ok ⟨"ans", 0.8, ⟨1, 1, 0, 1⟩⟩ ∧
      ((⟨"ans", 0.8, ⟨1, 1, 0, 1⟩⟩ : AnswerOutput).confidence =
          0.4 * (⟨"ans", 0.8, ⟨1, 1, 0, 1⟩⟩ : AnswerOutput).breakdown.relevance
            + 0.2 * (⟨"ans", 0.8, ⟨1, 1, 0, 1⟩⟩ : AnswerOutput).breakdown.diversity
            + 0.2 * (⟨"ans", 0.8, ⟨1, 1, 0, 1⟩⟩ : AnswerOutput).breakdown.agreement
            + 0.2 * (⟨"ans", 0.8, ⟨1, 1, 0, 1⟩⟩ : AnswerOutput).breakdown.coverage
        ∧ ((0 ≤ (⟨"ans", 0.8, ⟨1, 1, 0, 1⟩⟩ : AnswerOutput).breakdown.relevance ∧
              (⟨"ans", 0.8, ⟨1, 1, 0, 1⟩⟩ : AnswerOutput).breakdown.relevance ≤ 1) →
           (0 ≤ (⟨"ans", 0.8, ⟨1, 1, 0, 1⟩⟩ : AnswerOutput).breakdown.diversity ∧
              (⟨"ans", 0.8, ⟨1, 1, 0, 1⟩⟩ : AnswerOutput).breakdown.diversity ≤ 1) →
           (0 ≤ (⟨"ans", 0.8, ⟨1, 1, 0, 1⟩⟩ : AnswerOutput).breakdown.agreement ∧
              (⟨"ans", 0.8, ⟨1, 1, 0, 1⟩⟩ : AnswerOutput).breakdown.agreement ≤ 1) →
           (0 ≤ (⟨"ans", 0.8, ⟨1, 1, 0, 1⟩⟩ : AnswerOutput).breakdown.coverage ∧
              (⟨"ans", 0.8, ⟨1, 1, 0, 1⟩⟩ : AnswerOutput).breakdown.coverage ≤ 1) →
           0 ≤ (⟨"ans", 0.8, ⟨1, 1, 0, 1⟩⟩ : AnswerOutput).confidence ∧
             (⟨"ans", 0.8, ⟨1, 1, 0, 1⟩⟩ : AnswerOutput).confidence ≤ 1)) :=
  ⟨by simp, by decide, w1_eval,
    generateAnswer_confidence_formula envK "q" [⟨.str "1", 1, [("question", .str "pq"), ("answer", .str "pa")]⟩] 1
      ⟨"ans", 0.8, ⟨1, 1, 0, 1⟩⟩ (by simp) (by decide) w1_eval⟩

theorem pairSimsWith_eq (env : Env) (x : Val) (ys : List Val) (D : Val → List ℝ)
    (hx : embedVal env x = .ok (D x)) (hys : ∀ y ∈ ys, embedVal env y = .ok (D y)) :
    pairSimsWith env x ys = .ok (ys.map fun y => cosSim (D x) (D y)) := by
  induction ys with
  | nil => rfl
  | cons y ys ih =>
    have hy : embedVal env y = .ok (D y) := hys y (List.mem_cons_self y ys)
    have hih := ih (fun z hz => hys z (List.mem_cons_of_mem y hz))
    simp only [pairSimsWith, hx, hy, hih, List.map_cons]

theorem allPairSims_eq (env : Env) (answers : List Val) (D : Val → List ℝ)
    (hD : ∀ v ∈ answers, embedVal env v = .ok (D v)) :
    allPairSims env answers = .ok ((pairsOf answers).map fun p => cosSim (D p.1) (D p.2)) := by
  induction answers with
  | nil => rfl
  | cons x xs ih =>
    have h1 := pairSimsWith_eq env x xs D (hD x (List.mem_cons_self x xs))
      (fun y hy => hD y (List.mem_cons_of_mem x hy))
    have h2 := ih (fun v hv => hD v (List.mem_cons_of_mem x hv))
    simp only [allPairSims, h1, h2, pairsOf, List.map_append, List.map_map]
    rfl

theorem extractAnswers_length (rs : List SearchResult) (answers : List Val)
    (h : extractAnswers rs = .ok answers) : answers.length = rs.length := by
  induction rs generalizing answers with
  | nil =>
    simp only [extractAnswers, Except.ok.injEq] at h
    subst h; rfl
  | cons r rs ih =>
    unfold extractAnswers at h
    rcases hl : List.lookup "answer" r.payload with _ | v
    · rw [hl] at h; exact absurd h (by simp)
    rw [hl] at h
    rcases hrec : extractAnswers rs with e | vs
    · rw [hrec] at h; exact absurd h (by simp)
    rw [hrec] at h
    simp only [Except.ok.injEq] at h
    subst h
    simp [ih vs hrec]

/-- C6: in every successful `generate_answer` run on a non-empty result
list, the diversity factor is `min(count/top_k, 1.0)` (hence `1.0` when
`count >= top_k`), and the agreement factor equals the mean pairwise
cosine similarity of the dense embeddings of the returned answers
(hence `0.0` with fewer than two results). -/
theorem generateAnswer_diversity_agreement (env : Env) (query : String)
    (rs : List SearchResult) (topk : Nat) (out : AnswerOutput)
    (answers : List Val) (D : Val → List ℝ)
    (hne : rs ≠ []) (hk : 0 < topk)
    (h : generateAnswer env query rs topk = .ok out)
    (hans : extractAnswers rs = .ok answers)
    (hD : ∀ v ∈ answers, embedVal env v = .ok (D v)) :
    out.breakdown.diversity = min ((rs.length : ℝ) / (topk : ℝ)) 1
    ∧ (topk ≤ rs.length → out.breakdown.diversity = 1)
    ∧ out.breakdown.agreement = meanPairwiseCosSim D answers
    ∧ (rs.length < 2 → out.breakdown.agreement = 0) := by
  rcases rs with _ | ⟨r0, rest⟩
  · exact absurd rfl hne
  rcases generateAnswer_ok_shape env query r0 rest topk out h with
    ⟨ctx, response, answers', sims, answerEmb, questionEmb, _, _, hans', hsims, _, _, rfl⟩
  have hanseq : answers' = answers := by
    have h0 := hans'.symm.trans hans
    simpa using h0
  rw [hanseq] at hsims
  have hsims_eq : sims = (pairsOf answers).map fun p => cosSim (D p.1) (D p.2) := by
    rw [allPairSims_eq env answers D hD] at hsims
    simpa using hsims.symm
  subst hsims_eq
  refine ⟨rfl, ?_, ?_, ?_⟩
  · intro hlen
    have h1 : (1 : ℝ) ≤ ((r0 :: rest).length : ℝ) / (topk : ℝ) := by
      rw [le_div_iff₀ (by exact_mod_cast hk)]
      simpa using (Nat.cast_le (α := ℝ)).2 hlen
    simpa using min_eq_right h1
  · rcases hp : pairsOf answers with _ | ⟨p, ps⟩
    · simp [meanPairwiseCosSim, hp]
    · simp [meanPairwiseCosSim, hp]
  · intro hlen
    have hlen' : answers.length < 2 := by
      rw [extractAnswers_length (r0 :: rest) answers hans]
      exact hlen
    have hpe : pairsOf answers = [] := by
      rcases answers with _ | ⟨a, _ | ⟨b, t⟩⟩
      · rfl
      · rfl
      · exact absurd hlen' (Nat.not_lt.2 (Nat.le_add_left 2 t.length))
    simp [hpe]

/-- Witness for C6 at a concrete one-result run. -/
theorem generateAnswer_diversity_agreement_witness :
    ([⟨.str "1", 1, [("question", .str "pq"), ("answer", .str "pa")]⟩] : List SearchResult) ≠ [] ∧
      (0 : Nat) < 1 ∧
      generateAnswer envK "q" [⟨.str "1", 1, [("question", .str "pq"), ("answer", .str "pa")]⟩] 1 =
        .ok ⟨"ans", 0.8, ⟨1, 1, 0, 1⟩⟩ ∧
      extractAnswers [⟨.str "1", 1, [("question", .str "pq"), ("answer", .str "pa")]⟩] = .ok [.str "pa"] ∧
      (∀ v ∈ [Val.str "pa"], embedVal envK v = .ok ((fun _ => [(1 : ℝ)]) v)) ∧
      ((⟨"ans", 0.8, ⟨1, 1, 0, 1⟩⟩ : AnswerOutput).breakdown.diversity =
          min ((([⟨.str "1", 1, [("question", .str "pq"), ("answer", .str "pa")]⟩] : List SearchResult).length : ℝ)
              / ((1 : Nat) : ℝ)) 1
        ∧ ((1 : Nat) ≤ ([⟨.str "1", 1, [("question", .str "pq"), ("answer", .str "pa")]⟩] : List SearchResult).length →
            (⟨"ans", 0.8, ⟨1, 1, 0, 1⟩⟩ : AnswerOutput).breakdown.diversity = 1)
        ∧ (⟨"ans", 0.8, ⟨1, 1, 0, 1⟩⟩ : AnswerOutput).breakdown.agreement =
            meanPairwiseCosSim (fun _ => [(1 : ℝ)]) [.str "pa"]
        ∧ (([⟨.str "1", 1, [("question", .str "pq"), ("answer", .str "pa")]⟩] : List SearchResult).length < 2 →
            (⟨"ans", 0.8, ⟨1, 1, 0, 1⟩⟩ : AnswerOutput).breakdown.agreement = 0)) :=
  ⟨by simp, by decide, w1_eval, rfl,
    by intro v hv; simp only [List.mem_singleton] at hv; subst hv; rfl,
    generateAnswer_diversity_agreement envK "q" [⟨.str "1", 1, [("question", .str "pq"), ("answer", .str "pa")]⟩] 1
      ⟨"ans", 0.8, ⟨1, 1, 0, 1⟩⟩ [.str "pa"] (fun _ => [(1 : ℝ)]) (by simp) (by decide) w1_eval
      rfl (by intro v hv; simp only [List.mem_singleton] at hv; subst hv; rfl)⟩
